import Mathlib

/-!
Verification of the SSR theme runtime orchestrator of the murphy-app
repository: the process supervisor and its registry (package ssr,
Manager), the readiness prober, the activation coordinator (theme
service) and the reverse-proxy middleware, shallowly embedded as
executable Lean functions over explicit state.  The outcomes of external
effects (process spawn, signal delivery, process-exit timing, database
calls, HTTP probes) are supplied as oracle parameters, and each
supervisor operation additionally records the ordered trace of the
abstract actions it performs (lock handling, map mutation, process
actions), which is what the concurrency-discipline statements are about.
-/

namespace MurphyApp

/-- Abstract actions performed by supervisor operations, recorded in
source order.  Lock actions refer to the Manager mutex; the blocking
external calls named by the concurrency design are process spawn, waits
for process exit and HTTP calls. -/
inductive PAction where
  | lockAcquire
  | lockRelease
  | mapLookup
  | mapInsert
  | mapDelete
  | mapClear
  | statFs
  | openLog
  | spawn
  | sigterm
  | kill
  | waitBounded
  | waitUnbounded
  | httpProbe
  | sleep
deriving Repr, DecidableEq

/-- One registry entry (source: runningTheme): the process handle is
modelled by the Boolean procLive (cmd.Process is non-nil). -/
structure RunningTheme where
  procLive : Bool
  port : Nat
  startedAt : Nat
deriving Repr, DecidableEq

/-- The supervisor registry (source: Manager.processes), an association
list standing for the Go map from theme name to running entry. -/
structure Manager where
  processes : List (String × RunningTheme)
deriving Repr, DecidableEq

def Manager.lookup (m : Manager) (name : String) : Option RunningTheme :=
  m.processes.lookup name

/-- The check the source repeats at each use site: an entry exists and
its process handle is non-nil. -/
def Manager.liveEntry (m : Manager) (name : String) : Bool :=
  match m.lookup name with
  | some rt => rt.procLive
  | none => false

/-- delete(m.processes, name) -/
def Manager.eraseKey (m : Manager) (name : String) : Manager :=
  ⟨m.processes.filter (fun p => p.fst != name)⟩

/-- m.processes[name] = rt (map update: at most one binding per key). -/
def Manager.insert (m : Manager) (name : String) (rt : RunningTheme) : Manager :=
  ⟨(name, rt) :: (m.eraseKey name).processes⟩

/-- Number of registry bindings held for a name (1 at most under Go map
semantics). -/
def Manager.countFor (m : Manager) (name : String) : Nat :=
  (m.processes.filter (fun p => p.fst == name)).length

/-- Manager.IsRunning (source 491-497). -/
def Manager.IsRunning (m : Manager) (name : String) : Bool :=
  m.liveEntry name

/-- Manager.GetPort (source 343-351): port of the live entry, 0 when the
theme is not running. -/
def Manager.GetPort (m : Manager) (name : String) : Nat :=
  match m.lookup name with
  | some rt => if rt.procLive then rt.port else 0
  | none => 0

/-- Manager.ListRunning (source 500-511). -/
def Manager.ListRunning (m : Manager) : List String :=
  (m.processes.filter (fun p => p.snd.procLive)).map Prod.fst

def exceptDecEq {ε α : Type} [DecidableEq ε] [DecidableEq α] :
    DecidableEq (Except ε α)
  | .ok a, .ok b =>
      if h : a = b then .isTrue (by rw [h])
      else .isFalse (by intro hc; cases hc; exact h rfl)
  | .ok _, .error _ => .isFalse (by intro hc; cases hc)
  | .error _, .ok _ => .isFalse (by intro hc; cases hc)
  | .error e, .error f =>
      if h : e = f then .isTrue (by rw [h])
      else .isFalse (by intro hc; cases hc; exact h rfl)

instance {ε α : Type} [DecidableEq ε] [DecidableEq α] : DecidableEq (Except ε α) :=
  exceptDecEq

/-- On-disk install state consumed by Start: whether
themesDir/name/server.js exists. -/
structure FS where
  serverJsExists : String → Bool

inductive StartError where
  | alreadyRunning
  | notInstalled
  | spawnFailed
deriving Repr, DecidableEq

inductive StopError where
  | notRunning
deriving Repr, DecidableEq

/-- Environment of one Start call: whether opening the per-theme log file
succeeds (non-fatal either way), whether cmd.Start() succeeds, and the
clock value recorded as startedAt. -/
structure StartEnv where
  logOpenOk : Bool
  spawnOk : Bool
  now : Nat

structure StartOut where
  result : Except StartError Unit
  mgr : Manager
  trace : List PAction
deriving Repr, DecidableEq

/-- Manager.Start (source 205-269): under the exclusive lock, fail with
AlreadyRunning when a live entry exists; check server.js on disk and fail
with NotInstalled when absent; open the log sink (non-fatal), spawn the
node process (fatal on failure), and record the new entry.  The exit
reaper and the readiness prober are launched as separate background
tasks and so do not appear in this call's own trace. -/
def Manager.Start (m : Manager) (fs : FS) (env : StartEnv) (name : String) (port : Nat) :
    StartOut :=
  if m.liveEntry name then
    { result := .error .alreadyRunning, mgr := m
    , trace := [.lockAcquire, .mapLookup, .lockRelease] }
  else if !(fs.serverJsExists name) then
    { result := .error .notInstalled, mgr := m
    , trace := [.lockAcquire, .mapLookup, .statFs, .lockRelease] }
  else if !env.spawnOk then
    { result := .error .spawnFailed, mgr := m
    , trace := [.lockAcquire, .mapLookup, .statFs, .openLog, .spawn, .lockRelease] }
  else
    { result := .ok ()
    , mgr := m.insert name { procLive := true, port := port, startedAt := env.now }
    , trace := [.lockAcquire, .mapLookup, .statFs, .openLog, .spawn, .mapInsert,
                .lockRelease] }

/-- Environment of one Stop call: whether Signal(SIGTERM) returns without
error, and whether the process exits within the 5 second bounded wait. -/
structure StopEnv where
  sigtermOk : Bool
  exitsWithinTimeout : Bool
deriving Repr, DecidableEq

structure StopOut where
  result : Except StopError Unit
  mgr : Manager
  trace : List PAction
deriving Repr, DecidableEq

/-- Manager.Stop (source 310-339): under the exclusive lock, fail with
NotRunning when no live entry exists; otherwise SIGTERM (escalating to
Kill if the signal itself errors), wait up to 5 seconds for exit, Kill on
timeout, delete the entry unconditionally and return nil. -/
def Manager.Stop (m : Manager) (env : StopEnv) (name : String) : StopOut :=
  if !(m.liveEntry name) then
    { result := .error .notRunning, mgr := m
    , trace := [.lockAcquire, .mapLookup, .lockRelease] }
  else
    { result := .ok ()
    , mgr := m.eraseKey name
    , trace := [.lockAcquire, .mapLookup, .sigterm]
          ++ (if env.sigtermOk then [] else [.kill])
          ++ [.waitBounded]
          ++ (if env.exitsWithinTimeout then [] else [.kill])
          ++ [.mapDelete, .lockRelease] }

structure StopAllOut where
  result : Except StopError Unit
  mgr : Manager
  trace : List PAction
deriving Repr, DecidableEq

/-- Manager.StopAll (source 475-488): under the exclusive lock, for each
live entry send SIGTERM (any signal error is dropped) and wait, without
bound and without escalation, for the process to exit; then replace the
registry with a fresh empty map and return nil. -/
def Manager.StopAll (m : Manager) : StopAllOut :=
  { result := .ok ()
  , mgr := ⟨[]⟩
  , trace := [.lockAcquire]
        ++ (m.processes.filter (fun p => p.snd.procLive)).flatMap
             (fun _ => [.sigterm, .waitUnbounded])
        ++ [.mapClear, .lockRelease] }

/-- Trace of the exit-reaper goroutine (source 255-261): wait for the
process to exit, then take the lock only for the map deletion. -/
def reaperTrace : List PAction :=
  [.waitUnbounded, .lockAcquire, .mapDelete, .lockRelease]

/-- Trace of a pure registry lookup (IsRunning, GetPort, ListRunning,
GetRunningTheme): the shared lock around the map read only. -/
def lookupTrace : List PAction :=
  [.lockAcquire, .mapLookup, .lockRelease]

/-- Trace of one readiness-prober iteration (source 279-306): the shared
lock is released before the HTTP probe and the sleep. -/
def proberIterTrace : List PAction :=
  [.lockAcquire, .mapLookup, .lockRelease, .httpProbe, .sleep]

/-- Blocking external calls in the sense of the concurrency design:
process spawn, waits for process exit, HTTP calls. -/
def isBlockingExternal : PAction → Bool
  | .spawn => true
  | .waitBounded => true
  | .waitUnbounded => true
  | .httpProbe => true
  | _ => false

/-- Process actions (signals, kills, waits, spawn), as opposed to pure
bookkeeping. -/
def isProcessAction : PAction → Bool
  | .sigterm => true
  | .kill => true
  | .waitBounded => true
  | .waitUnbounded => true
  | .spawn => true
  | _ => false

def lockDepthStep (d : Nat) : PAction → Nat
  | .lockAcquire => d + 1
  | .lockRelease => d - 1
  | _ => d

/-- Does the trace perform a blocking external call while the lock is
held? -/
def holdsLockAcrossBlockingAux : Nat → List PAction → Bool
  | _, [] => false
  | d, a :: rest =>
      (isBlockingExternal a && decide (0 < d))
        || holdsLockAcrossBlockingAux (lockDepthStep d a) rest

def holdsLockAcrossBlocking (tr : List PAction) : Bool :=
  holdsLockAcrossBlockingAux 0 tr

lemma lookup_filter_self (l : List (String × RunningTheme)) (name : String) :
    (l.filter (fun p => p.fst != name)).lookup name = none := by
  induction l with
  | nil => rfl
  | cons p t ih =>
      obtain ⟨k, v⟩ := p
      by_cases h : k = name
      · simp [List.filter_cons, h, ih]
      · have hne : (name == k) = false := beq_eq_false_iff_ne.mpr (Ne.symm h)
        simp [List.filter_cons, bne_iff_ne, h, List.lookup_cons, hne, ih]

lemma lookup_filter_ne (l : List (String × RunningTheme)) (name k : String)
    (h : k ≠ name) :
    (l.filter (fun p => p.fst != name)).lookup k = l.lookup k := by
  induction l with
  | nil => rfl
  | cons p t ih =>
      obtain ⟨a, v⟩ := p
      by_cases ha : a = name
      · subst ha
        have hka : (k == a) = false := beq_eq_false_iff_ne.mpr h
        simp [List.filter_cons, List.lookup_cons, hka, ih]
      · simp only [List.filter_cons]
        have hkeep : ((a, v).fst != name) = true := by simp [bne_iff_ne, ha]
        simp only [hkeep, if_true]
        rw [List.lookup_cons, List.lookup_cons]
        cases hb : (k == a) <;> simp [hb, ih]

lemma eraseKey_lookup_self (m : Manager) (name : String) :
    (m.eraseKey name).lookup name = none :=
  lookup_filter_self m.processes name

lemma eraseKey_lookup_ne (m : Manager) (name k : String) (h : k ≠ name) :
    (m.eraseKey name).lookup k = m.lookup k :=
  lookup_filter_ne m.processes name k h

lemma insert_lookup_self (m : Manager) (name : String) (rt : RunningTheme) :
    (m.insert name rt).lookup name = some rt := by
  unfold Manager.insert Manager.lookup
  rw [List.lookup_cons]
  simp

lemma countFor_insert_self (m : Manager) (name : String) (rt : RunningTheme) :
    (m.insert name rt).countFor name = 1 := by
  unfold Manager.insert Manager.countFor Manager.eraseKey
  have h2 : ((m.processes.filter (fun p => p.fst != name)).filter
      (fun p => p.fst == name)) = [] := by
    rw [List.filter_eq_nil_iff]
    intro p hp
    have hmem := (List.mem_filter.mp hp).2
    simp only [bne_iff_ne, ne_eq, decide_eq_true_eq] at hmem
    simp [hmem]
  simp [List.filter_cons, h2]

lemma liveEntry_insert_live (m : Manager) (name : String) (port t : Nat) :
    (m.insert name { procLive := true, port := port, startedAt := t }).liveEntry name
      = true := by
  unfold Manager.liveEntry
  rw [insert_lookup_self]

/-- C4: Start fails with AlreadyRunning exactly when a live registry entry
(non-nil process handle) already exists for the name; otherwise it fails
with NotInstalled exactly when server.js is absent on disk; and a
successful Start leaves exactly one registry binding for the name, so a
second Start for the same name always fails with AlreadyRunning. -/
theorem start_error_classification (m : Manager) (fs fs2 : FS) (env env2 : StartEnv)
    (name : String) (port port2 : Nat) :
    ((Manager.Start m fs env name port).result = .error .alreadyRunning
        ↔ m.liveEntry name = true)
    ∧ (m.liveEntry name = false →
        ((Manager.Start m fs env name port).result = .error .notInstalled
          ↔ fs.serverJsExists name = false))
    ∧ ((Manager.Start m fs env name port).result = .ok () →
        ((Manager.Start m fs env name port).mgr).countFor name = 1
        ∧ (Manager.Start (Manager.Start m fs env name port).mgr fs2 env2 name
            port2).result = .error .alreadyRunning) := by
  unfold Manager.Start
  by_cases h1 : m.liveEntry name
  · simp [h1]
  · by_cases h2 : fs.serverJsExists name
    · by_cases h3 : env.spawnOk
      · simp only [h1, h2, h3, Bool.not_true, if_false, Bool.not_eq_true, if_true]
        simp [h1, h2, h3, countFor_insert_self, liveEntry_insert_live]
      · simp [h1, h2, h3]
    · simp [h1, h2]

/-- Witness for C4 at a concrete state: empty registry, theme installed,
spawn succeeds. -/
theorem start_error_classification_witness :
    ((Manager.Start ⟨[]⟩ ⟨fun n => n == "a"⟩ ⟨true, true, 0⟩ "a" 3000).result = .ok ())
    ∧ ((Manager.Start (Manager.Start ⟨[]⟩ ⟨fun n => n == "a"⟩ ⟨true, true, 0⟩ "a"
        3000).mgr ⟨fun n => n == "a"⟩ ⟨true, true, 1⟩ "a" 3001).result
          = .error .alreadyRunning) := by
  refine ⟨by decide, ?_⟩
  exact ((start_error_classification ⟨[]⟩ ⟨fun n => n == "a"⟩ ⟨fun n => n == "a"⟩
    ⟨true, true, 0⟩ ⟨true, true, 1⟩ "a" 3000 3001).2.2 (by decide)).2

lemma stop_eq_notRunning (m : Manager) (env : StopEnv) (name : String)
    (h : m.liveEntry name = false) :
    Manager.Stop m env name =
      { result := .error .notRunning, mgr := m
      , trace := [.lockAcquire, .mapLookup, .lockRelease] } := by
  simp [Manager.Stop, h]

lemma stop_eq_live (m : Manager) (env : StopEnv) (name : String)
    (h : m.liveEntry name = true) :
    Manager.Stop m env name =
      { result := .ok (), mgr := m.eraseKey name
      , trace := [.lockAcquire, .mapLookup, .sigterm]
          ++ (if env.sigtermOk then [] else [.kill])
          ++ [.waitBounded]
          ++ (if env.exitsWithinTimeout then [] else [.kill])
          ++ [.mapDelete, .lockRelease] } := by
  simp [Manager.Stop, h]

/-- C5: Stop on a theme with no live entry returns NotRunning, leaves the
registry untouched and performs no process action; Stop on a live entry
succeeds (timeout is escalated to forced kill internally, never surfaced),
and afterwards IsRunning is false and GetPort is 0, whether termination
was graceful or forced. -/
theorem stop_semantics (m : Manager) (env : StopEnv) (name : String) :
    (m.liveEntry name = false →
      (Manager.Stop m env name).result = .error .notRunning
      ∧ (Manager.Stop m env name).mgr = m
      ∧ ((Manager.Stop m env name).trace.filter isProcessAction) = [])
    ∧ (m.liveEntry name = true →
      (Manager.Stop m env name).result = .ok ()
      ∧ ((Manager.Stop m env name).mgr).IsRunning name = false
      ∧ ((Manager.Stop m env name).mgr).GetPort name = 0) := by
  constructor
  · intro h
    rw [stop_eq_notRunning m env name h]
    exact ⟨rfl, rfl, rfl⟩
  · intro h
    rw [stop_eq_live m env name h]
    refine ⟨rfl, ?_, ?_⟩
    · simp [Manager.IsRunning, Manager.liveEntry, eraseKey_lookup_self]
    · simp [Manager.GetPort, eraseKey_lookup_self]

/-- Witness for C5: both branches at concrete states — an empty registry
(NotRunning) and a one-entry registry stopped with a forced kill. -/
theorem stop_semantics_witness :
    ((Manager.Stop ⟨[]⟩ ⟨true, true⟩ "a").result = .error .notRunning
      ∧ (Manager.Stop ⟨[]⟩ ⟨true, true⟩ "a").mgr = ⟨[]⟩)
    ∧ ((Manager.Stop ⟨[("a", ⟨true, 3000, 0⟩)]⟩ ⟨true, false⟩ "a").result = .ok ()
      ∧ ((Manager.Stop ⟨[("a", ⟨true, 3000, 0⟩)]⟩ ⟨true, false⟩ "a").mgr).IsRunning "a"
          = false
      ∧ ((Manager.Stop ⟨[("a", ⟨true, 3000, 0⟩)]⟩ ⟨true, false⟩ "a").mgr).GetPort "a"
          = 0) := by
  constructor
  · have h := (stop_semantics ⟨[]⟩ ⟨true, true⟩ "a").1 (by decide)
    exact ⟨h.1, h.2.1⟩
  · exact (stop_semantics ⟨[("a", ⟨true, 3000, 0⟩)]⟩ ⟨true, false⟩ "a").2 (by decide)

/-- A registry with a single live entry, used as the concrete state of
several counterexamples and witnesses. -/
def mgrA : Manager := ⟨[("a", ⟨true, 3000, 0⟩)]⟩

lemma start_eq_ok (m : Manager) (fs : FS) (env : StartEnv) (name : String)
    (port : Nat) (h1 : m.liveEntry name = false)
    (h2 : fs.serverJsExists name = true) (h3 : env.spawnOk = true) :
    Manager.Start m fs env name port =
      { result := .ok ()
      , mgr := m.insert name { procLive := true, port := port, startedAt := env.now }
      , trace := [.lockAcquire, .mapLookup, .statFs, .openLog, .spawn, .mapInsert,
                  .lockRelease] } := by
  simp [Manager.Start, h1, h2, h3]

/-- C6 counterexample: on a registry with one live entry whose process
does not exit within the graceful timeout, StopAll performs no bounded
wait and no forced kill at all (it only signals and waits unboundedly),
whereas Stop on the very same state escalates the timeout to a kill — so
StopAll does not apply the same graceful-then-forced stop per entry. -/
theorem stopAll_no_forced_kill_cex :
    PAction.waitBounded ∉ (Manager.StopAll mgrA).trace
    ∧ PAction.kill ∉ (Manager.StopAll mgrA).trace
    ∧ PAction.kill ∈ (Manager.Stop mgrA ⟨true, false⟩ "a").trace := by
  decide

/-- C6 as amended: StopAll sends each live entry a graceful termination
signal and waits for exit without bound and without escalation (no
bounded wait, no forced kill), drops individual signal errors and always
returns success, and clears the registry, so a subsequent ListRunning is
empty. -/
theorem stopAll_amended (m : Manager) :
    (Manager.StopAll m).result = .ok ()
    ∧ ((Manager.StopAll m).mgr).ListRunning = []
    ∧ ((Manager.StopAll m).mgr).processes = []
    ∧ PAction.kill ∉ (Manager.StopAll m).trace
    ∧ PAction.waitBounded ∉ (Manager.StopAll m).trace
    ∧ (∀ n, n ∈ m.ListRunning → PAction.sigterm ∈ (Manager.StopAll m).trace) := by
  refine ⟨rfl, rfl, rfl, ?_, ?_, ?_⟩
  · simp [Manager.StopAll, List.mem_append, List.mem_flatMap]
  · simp [Manager.StopAll, List.mem_append, List.mem_flatMap]
  · intro n hn
    unfold Manager.ListRunning at hn
    obtain ⟨p, hp, _⟩ := List.mem_map.mp hn
    simp only [Manager.StopAll, List.cons_append, List.mem_cons, List.mem_append,
      List.mem_flatMap]
    exact Or.inr (Or.inl (Or.inr ⟨p, hp, Or.inl trivial⟩))

/-- Witness for C6 instantiating the membership hypothesis: the single
live entry of mgrA is signalled. -/
theorem stopAll_amended_witness :
    "a" ∈ mgrA.ListRunning
    ∧ PAction.sigterm ∈ (Manager.StopAll mgrA).trace :=
  ⟨by decide, (stopAll_amended mgrA).2.2.2.2.2 "a" (by decide)⟩

/-- C9 counterexample: Stop holds the registry mutex across its bounded
wait for process exit, Start holds it across the process spawn, and
StopAll holds it across its unbounded waits — refuting the claim that no
supervisor operation holds the lock across a blocking external call. -/
theorem lock_held_across_blocking_cex :
    holdsLockAcrossBlocking ((Manager.Stop mgrA ⟨true, true⟩ "a").trace) = true
    ∧ holdsLockAcrossBlocking
        ((Manager.Start ⟨[]⟩ ⟨fun n => n == "a"⟩ ⟨true, true, 0⟩ "a" 3000).trace) = true
    ∧ holdsLockAcrossBlocking ((Manager.StopAll mgrA).trace) = true := by
  decide

/-- C9 as amended: Start, Stop and StopAll each hold the registry lock
across their blocking external calls (spawn, the bounded wait for exit,
the sweep's unbounded waits), while the pure lookups, the exit reaper
(which waits before locking) and the readiness prober's loop iteration
(which releases the read lock before the HTTP probe and the sleep) do
not hold the lock across any blocking call. -/
theorem lock_discipline_amended (m : Manager) (fs : FS) (senv : StartEnv)
    (env : StopEnv) (name : String) (port : Nat) :
    (m.liveEntry name = true →
      holdsLockAcrossBlocking ((Manager.Stop m env name).trace) = true)
    ∧ (m.liveEntry name = false → fs.serverJsExists name = true →
        senv.spawnOk = true →
      holdsLockAcrossBlocking ((Manager.Start m fs senv name port).trace) = true)
    ∧ (m.ListRunning ≠ [] →
      holdsLockAcrossBlocking ((Manager.StopAll m).trace) = true)
    ∧ holdsLockAcrossBlocking lookupTrace = false
    ∧ holdsLockAcrossBlocking reaperTrace = false
    ∧ holdsLockAcrossBlocking proberIterTrace = false := by
  refine ⟨?_, ?_, ?_, rfl, rfl, rfl⟩
  · intro h
    rw [stop_eq_live m env name h]
    obtain ⟨s, e⟩ := env
    cases s <;> cases e <;> rfl
  · intro h1 h2 h3
    rw [start_eq_ok m fs senv name port h1 h2 h3]
    rfl
  · intro hne
    unfold Manager.StopAll holdsLockAcrossBlocking
    cases hf : m.processes.filter (fun p => p.snd.procLive) with
    | nil => exact absurd (by simp [Manager.ListRunning, hf]) hne
    | cons p rest =>
        simp [holdsLockAcrossBlockingAux, isBlockingExternal, lockDepthStep]

/-- Witness for C9 as amended, at the concrete one-entry registry. -/
theorem lock_discipline_amended_witness :
    mgrA.liveEntry "a" = true
    ∧ holdsLockAcrossBlocking ((Manager.Stop mgrA ⟨false, false⟩ "a").trace) = true
    ∧ holdsLockAcrossBlocking ((Manager.StopAll mgrA).trace) = true := by
  have h := lock_discipline_amended mgrA ⟨fun n => n == "a"⟩ ⟨true, true, 0⟩
    ⟨false, false⟩ "a" 3000
  exact ⟨by decide, h.1 (by decide), h.2.2.1 (by decide)⟩

/-- Environment of one readiness-probe loop (source waitForReady,
272-307): for the probe begun at elapsed second t, its duration (the per
probe HTTP timeout bounds it by 2 seconds) and whether it receives a
response; and whether the owning registry entry is still present at the
check performed at elapsed second t. -/
structure ProbeEnv where
  probeDur : Nat → Nat
  probeOk : Nat → Bool
  aliveAt : Nat → Bool

/-- The waitForReady loop over elapsed integer seconds: at the top of
each iteration it returns at once when 30 seconds have elapsed or when
the registry entry has disappeared; otherwise it probes (taking
probeDur t seconds); a response ends the loop, a failure sleeps 1 second
and retries.  The value returned is the elapsed time at which the loop
exits; the fuel only drives structural recursion and is never exhausted
from 31, since every iteration advances time by at least one second. -/
def waitForReadyAux (env : ProbeEnv) : Nat → Nat → Option Nat
  | 0, _ => none
  | fuel + 1, t =>
    if 30 ≤ t then some t
    else if !(env.aliveAt t) then some t
    else if env.probeOk t then some (t + env.probeDur t)
    else waitForReadyAux env fuel (t + env.probeDur t + 1)

def waitForReady (env : ProbeEnv) : Option Nat :=
  waitForReadyAux env 31 0

lemma waitForReadyAux_isSome (env : ProbeEnv) :
    ∀ fuel t, 1 ≤ fuel → 31 ≤ fuel + t → (waitForReadyAux env fuel t).isSome := by
  intro fuel
  induction fuel with
  | zero => intro t h _; omega
  | succ n ih =>
      intro t _ hsum
      unfold waitForReadyAux
      by_cases h30 : 30 ≤ t
      · simp [h30]
      · simp only [h30, if_false]
        by_cases ha : env.aliveAt t
        · simp only [ha, Bool.not_true, Bool.false_eq_true, if_false]
          by_cases hp : env.probeOk t
          · simp [hp]
          · simp only [hp, Bool.false_eq_true, if_false]
            exact ih (t + env.probeDur t + 1) (by omega) (by omega)
        · simp [ha]

lemma waitForReadyAux_le (env : ProbeEnv) (hd : ∀ u, env.probeDur u ≤ 2) :
    ∀ fuel t T, t ≤ 32 → waitForReadyAux env fuel t = some T → T ≤ 32 := by
  intro fuel
  induction fuel with
  | zero => intro t T _ h; simp [waitForReadyAux] at h
  | succ n ih =>
      intro t T ht h
      unfold waitForReadyAux at h
      by_cases h30 : 30 ≤ t
      · simp [h30] at h; omega
      · simp only [h30, if_false] at h
        by_cases ha : env.aliveAt t
        · simp only [ha, Bool.not_true, Bool.false_eq_true, if_false] at h
          by_cases hp : env.probeOk t
          · simp only [hp, if_true, Option.some_inj] at h
            have := hd t
            omega
          · simp only [hp, Bool.false_eq_true, if_false] at h
            have := hd t
            exact ih (t + env.probeDur t + 1) T (by omega) h
        · simp only [ha, Bool.not_false, if_true, Option.some_inj] at h
          omega

/-- C7 counterexample environment: the runtime never responds, the
process stays alive, probes are instant except the one begun at second
29, which runs into the full 2 second per-probe timeout. -/
def probeEnvC7 : ProbeEnv :=
  { probeDur := fun t => if t = 29 then 2 else 0
  , probeOk := fun _ => false
  , aliveAt := fun _ => true }

/-- C7 counterexample: for this never-responding runtime (probeOk is
constantly false and every probe stays within the 2 second timeout) the
loop exits only at elapsed second 32 — the last check admitted at second
29 is followed by a 2 second probe and the 1 second sleep — so polling
does not stop within the claimed 31 seconds, nor within the 30 second
configured maximum. -/
theorem waitForReady_exceeds_31s_cex :
    waitForReady probeEnvC7 = some 32 ∧ ¬(32 ≤ 31) := by
  exact ⟨by decide, by omega⟩

/-- C7 as amended: the readiness-probe loop always terminates (a
response, the disappearance of the registry entry, and the elapsed
maximum all end it), and when every probe respects the 2 second
per-probe timeout it terminates within 32 seconds of start — maximum
elapsed check at second 29, plus a 2 second probe, plus the 1 second
sleep — rather than the 31 seconds stated. -/
theorem waitForReady_terminates_bounded (env : ProbeEnv) :
    (waitForReady env).isSome = true
    ∧ ((∀ u, env.probeDur u ≤ 2) →
        ∀ T, waitForReady env = some T → T ≤ 32) := by
  constructor
  · simpa [waitForReady] using waitForReadyAux_isSome env 31 0 (by omega) (by omega)
  · intro hd T h
    exact waitForReadyAux_le env hd 31 0 T (by omega) h

/-- Witness for C7 as amended at the concrete environment probeEnvC7. -/
theorem waitForReady_terminates_bounded_witness :
    (waitForReady probeEnvC7).isSome = true ∧ (32 : Nat) ≤ 32 := by
  have hd : ∀ u, probeEnvC7.probeDur u ≤ 2 := by
    intro u
    by_cases h : u = 29 <;> simp [probeEnvC7, h]
  have h := waitForReady_terminates_bounded probeEnvC7
  exact ⟨h.1, h.2 hd 32 (by decide)⟩

/-- strings.HasPrefix of the Go standard library, over the character
lists of the two strings. -/
def hasStart (pre s : String) : Bool :=
  pre.data.isPrefixOf s.data

/-- Exact-match exclusion paths (source shouldSkipSSRProxy, 2147-2153). -/
def exactPaths : List String :=
  ["/robots.txt", "/sitemap.xml", "/rss.xml", "/feed.xml", "/atom.xml"]

/-- Path-beginning exclusion patterns (source 2165-2173). -/
def skipStarts : List String :=
  ["/api/", "/admin", "/login", "/admin-static/", "/admin-assets/", "/f/",
   "/needcache/"]

/-- shouldSkipSSRProxy (source 2145-2182). -/
def shouldSkipSSRProxy (path : String) : Bool :=
  exactPaths.contains path || skipStarts.any (fun p => hasStart p path)

/-- Manager.GetRunningTheme (source 456-472): name and port of the first
live entry of the registry, if any. -/
def Manager.GetRunningTheme (m : Manager) : Option (String × Nat) :=
  match m.processes.find? (fun p => p.snd.procLive) with
  | some p => some (p.fst, p.snd.port)
  | none => none

/-- GetCurrentSSRThemeName (service.go 576-593), the callback installed
as the middleware's checker: the name of the row marked current with
deploy type ssr when the catalog query succeeds and such a row exists,
and the empty string with false otherwise. -/
def themeChecker (queryOk : Bool) (dbCurrent : Option String) : String × Bool :=
  if queryOk then
    match dbCurrent with
    | some n => (n, true)
    | none => ("", false)
  else ("", false)

/-- Modelled from the spec: the startup wiring that calls
SetSSRThemeChecker is not under src/ (src/ has only the middleware, the
registration function and the checker implementation); spec section 4.4
states the router consults ActivationState via the catalog on every
request, i.e. the deployed configuration has the checker registered.
checkerRegistered records whether that registration has happened;
dbCurrent is the persisted flag (the at-most-one theme marked current
with deploy type ssr) and queryOk whether the catalog query succeeds. -/
structure ProxyConfig where
  mgr : Manager
  dbCurrent : Option String
  queryOk : Bool
  checkerRegistered : Bool
  managerPresent : Bool
deriving Repr, DecidableEq

/-- Per-request routing decision (the ProxyDecision of the data model). -/
inductive Decision where
  | pass
  | proxy (name : String) (port : Nat)
deriving Repr, DecidableEq

/-- SSRProxyMiddleware (frontend_router.go 2048-2141): skip when no SSR
manager is wired in or when the path is excluded; with a registered
checker, consult the persisted state and forward only when the named
theme is live in the registry (target port from GetPort); with no
checker registered (the backward-compatibility branch), forward to the
first live registry entry, if any. -/
def SSRProxyMiddleware (cfg : ProxyConfig) (path : String) : Decision :=
  if !cfg.managerPresent then .pass
  else if shouldSkipSSRProxy path then .pass
  else if cfg.checkerRegistered then
    let c := themeChecker cfg.queryOk cfg.dbCurrent
    if !c.snd then .pass
    else if cfg.mgr.IsRunning c.fst then .proxy c.fst (cfg.mgr.GetPort c.fst)
    else .pass
  else
    match cfg.mgr.GetRunningTheme with
    | some p => .proxy p.fst p.snd
    | none => .pass

/-- Well-formedness that Go map semantics guarantees for the registry:
no duplicate theme-name keys. -/
def Manager.wf (m : Manager) : Prop :=
  (m.processes.map Prod.fst).Nodup

instance (m : Manager) : Decidable m.wf := by
  unfold Manager.wf
  infer_instance

lemma lookup_of_mem_nodupKeys (l : List (String × RunningTheme))
    (p : String × RunningTheme) (hnd : (l.map Prod.fst).Nodup) (hp : p ∈ l) :
    l.lookup p.fst = some p.snd := by
  induction l with
  | nil => cases hp
  | cons q t ih =>
      rcases List.mem_cons.mp hp with h | h
      · subst h
        obtain ⟨a, v⟩ := p
        rw [List.lookup_cons]
        simp
      · have hnd2 : (q.fst :: t.map Prod.fst).Nodup := by
          rw [List.map_cons] at hnd; exact hnd
        have hnd1 := List.nodup_cons.mp hnd2
        have hq : q.fst ∉ t.map Prod.fst := hnd1.1
        have hpf : p.fst ∈ t.map Prod.fst := List.mem_map_of_mem Prod.fst h
        have hne : p.fst ≠ q.fst := fun he => hq (he ▸ hpf)
        obtain ⟨a, v⟩ := q
        rw [List.lookup_cons]
        simp only [beq_eq_false_iff_ne.mpr hne]
        exact ih hnd1.2 h

lemma getRunningTheme_isRunning (m : Manager) (hwf : m.wf) (n : String) (port : Nat)
    (h : m.GetRunningTheme = some (n, port)) : m.IsRunning n = true := by
  unfold Manager.GetRunningTheme at h
  cases hf : m.processes.find? (fun p => p.snd.procLive) with
  | none => rw [hf] at h; cases h
  | some p =>
      rw [hf] at h
      have hlive : p.snd.procLive = true := by simpa using List.find?_some hf
      have hmem : p ∈ m.processes := List.mem_of_find?_eq_some hf
      have hlook : m.lookup p.fst = some p.snd :=
        lookup_of_mem_nodupKeys m.processes p hwf hmem
      have hn : n = p.fst := by
        simp only [Option.some_inj] at h
        exact (congrArg Prod.fst h.symm)
      subst hn
      simp [Manager.IsRunning, Manager.liveEntry, hlook, hlive]

/-- A deployed configuration with the checker registered, the persisted
flag naming theme a, and theme a live in the registry. -/
def cfgLive : ProxyConfig :=
  { mgr := mgrA, dbCurrent := some "a", queryOk := true
  , checkerRegistered := true, managerPresent := true }

/-- C8: a request whose path matches the exclusion set (exact well-known
files or excluded path beginnings) is never forwarded to an SSR runtime,
whatever the activation state and the registry contents — it always
passes through to local handling. -/
theorem exclusion_never_proxied (cfg : ProxyConfig) (path : String)
    (h : shouldSkipSSRProxy path = true) :
    SSRProxyMiddleware cfg path = .pass := by
  unfold SSRProxyMiddleware
  by_cases hm : cfg.managerPresent
  · simp [hm, h]
  · simp [hm]

/-- Witness for C8: /robots.txt passes through even though the persisted
flag names theme a as current and theme a is live in the registry. -/
theorem exclusion_never_proxied_witness :
    shouldSkipSSRProxy "/robots.txt" = true
    ∧ SSRProxyMiddleware cfgLive "/robots.txt" = .pass
    ∧ cfgLive.dbCurrent = some "a"
    ∧ (cfgLive.mgr).IsRunning "a" = true := by
  refine ⟨by decide, exclusion_never_proxied cfgLive "/robots.txt" (by decide), rfl,
    by decide⟩

/-- C1: with the checker registered (the deployed configuration, see
ProxyConfig), the middleware forwards a request to theme name on some
port only when the persisted flag names that theme as current and the
registry reports it live; and in every configuration — including the
backward-compatibility branch without a registered checker — no request
is ever forwarded to a theme without a live registry entry. -/
theorem ssr_proxy_dual_check (cfg : ProxyConfig) (path name : String) (port : Nat) :
    (cfg.checkerRegistered = true →
      SSRProxyMiddleware cfg path = .proxy name port →
      cfg.dbCurrent = some name ∧ cfg.mgr.IsRunning name = true)
    ∧ (cfg.mgr.wf →
      SSRProxyMiddleware cfg path = .proxy name port →
      cfg.mgr.IsRunning name = true) := by
  have part1 : cfg.checkerRegistered = true →
      SSRProxyMiddleware cfg path = .proxy name port →
      cfg.dbCurrent = some name ∧ cfg.mgr.IsRunning name = true := by
    intro hreg hp
    by_cases hm : cfg.managerPresent
    · by_cases hs : shouldSkipSSRProxy path
      · simp [SSRProxyMiddleware, hm, hs] at hp
      · cases hq : cfg.queryOk with
        | false => simp [SSRProxyMiddleware, themeChecker, hm, hs, hreg, hq] at hp
        | true =>
            cases hdb : cfg.dbCurrent with
            | none =>
                simp [SSRProxyMiddleware, themeChecker, hm, hs, hreg, hq, hdb] at hp
            | some n0 =>
                by_cases hrun : cfg.mgr.IsRunning n0
                · simp [SSRProxyMiddleware, themeChecker, hm, hs, hreg, hq, hdb,
                    hrun] at hp
                  obtain ⟨hn, -⟩ := hp
                  subst hn
                  exact ⟨rfl, hrun⟩
                · simp [SSRProxyMiddleware, themeChecker, hm, hs, hreg, hq, hdb,
                    hrun] at hp
    · simp [SSRProxyMiddleware, hm] at hp
  refine ⟨part1, ?_⟩
  intro hwf hp
  by_cases hreg : cfg.checkerRegistered
  · exact (part1 hreg hp).2
  · by_cases hm : cfg.managerPresent
    · by_cases hs : shouldSkipSSRProxy path
      · simp [SSRProxyMiddleware, hm, hs] at hp
      · cases hg : cfg.mgr.GetRunningTheme with
        | none => simp [SSRProxyMiddleware, hm, hs, hreg, hg] at hp
        | some pr =>
            obtain ⟨n0, p0⟩ := pr
            simp [SSRProxyMiddleware, hm, hs, hreg, hg] at hp
            obtain ⟨hn, -⟩ := hp
            subst hn
            exact getRunningTheme_isRunning cfg.mgr hwf n0 p0 hg
    · simp [SSRProxyMiddleware, hm] at hp

/-- Witness for C1: in cfgLive the request to / is forwarded to theme a,
and the theorem yields that the flag names a and a is live. -/
theorem ssr_proxy_dual_check_witness :
    cfgLive.checkerRegistered = true
    ∧ SSRProxyMiddleware cfgLive "/" = .proxy "a" 3000
    ∧ (cfgLive.dbCurrent = some "a" ∧ (cfgLive.mgr).IsRunning "a" = true)
    ∧ cfgLive.mgr.wf := by
  refine ⟨rfl, by decide, ?_, by decide⟩
  exact (ssr_proxy_dual_check cfgLive "/" "a" 3000).1 rfl (by decide)

/-- One catalog row of the user's installed themes: the theme name and
the persisted is-current flag. -/
structure ThemeRow where
  name : String
  isCurrent : Bool
deriving Repr, DecidableEq

/-- The user's slice of the persisted catalog. -/
structure DB where
  rows : List ThemeRow
deriving Repr, DecidableEq

/-- Query().Where(UserID, ThemeName).First(ctx). -/
def DB.findRow (db : DB) (name : String) : Option ThemeRow :=
  db.rows.find? (fun r => r.name == name)

/-- Update().Where(UserID).SetIsCurrent(false): clear the flag on every
row of the user. -/
def DB.clearCurrent (db : DB) : DB :=
  ⟨db.rows.map (fun r => { r with isCurrent := false })⟩

/-- UpdateOneID(theme.ID).SetIsCurrent(true): set the flag on the target
row. -/
def DB.setCurrent (db : DB) (name : String) : DB :=
  ⟨db.rows.map (fun r => if r.name == name then { r with isCurrent := true } else r)⟩

inductive SwitchError where
  | queryFailed
  | notInstalled
  | txBeginFailed
  | clearFailed
  | setFailed
  | startFailed
  | commitFailed
  | updateFailed
deriving Repr, DecidableEq

/-- Environment of one SwitchToSSRTheme call: the success of each
database step, the filesystem and start environment for the target, and
the stop environments per theme name. -/
structure SwitchEnv where
  queryOk : Bool
  txBeginOk : Bool
  clearOk : Bool
  setOk : Bool
  commitOk : Bool
  fs : FS
  startEnv : StartEnv
  stopEnvs : String → StopEnv

structure SwitchOut where
  result : Except SwitchError Unit
  db : DB
  mgr : Manager

/-- Step 2 of SwitchToSSRTheme (service.go 2561-2574): stop every
running theme other than the target, ignoring individual stop errors. -/
def stopOthers (mgr : Manager) (env : SwitchEnv) (target : String) : Manager :=
  (mgr.ListRunning).foldl
    (fun acc n => if n == target then acc else (acc.Stop (env.stopEnvs n) n).mgr)
    mgr

/-- SwitchToSSRTheme (service.go 2522-2649): query the target row
(NotInstalled when absent), stop the other running themes, then inside a
transaction clear every is-current flag and set the target's; start the
target if it is not running, rolling the transaction back when the start
fails; finally commit, and on commit failure stop the target
unconditionally.  The db component is the persisted state: staged
transaction writes reach it only through a successful commit. -/
def SwitchToSSRTheme (db : DB) (mgr : Manager) (env : SwitchEnv) (target : String) :
    SwitchOut :=
  if !env.queryOk then { result := .error .queryFailed, db := db, mgr := mgr }
  else
    match db.findRow target with
    | none => { result := .error .notInstalled, db := db, mgr := mgr }
    | some _ =>
      if !env.txBeginOk then
        { result := .error .txBeginFailed, db := db, mgr := stopOthers mgr env target }
      else if !env.clearOk then
        { result := .error .clearFailed, db := db, mgr := stopOthers mgr env target }
      else if !env.setOk then
        { result := .error .setFailed, db := db, mgr := stopOthers mgr env target }
      else if (stopOthers mgr env target).IsRunning target then
        if env.commitOk then
          { result := .ok (), db := (db.clearCurrent).setCurrent target
          , mgr := stopOthers mgr env target }
        else
          { result := .error .commitFailed, db := db
          , mgr := ((stopOthers mgr env target).Stop (env.stopEnvs target) target).mgr }
      else
        match ((stopOthers mgr env target).Start env.fs env.startEnv target
            3000).result with
        | .error _ =>
            { result := .error .startFailed, db := db
            , mgr := ((stopOthers mgr env target).Start env.fs env.startEnv target
                3000).mgr }
        | .ok _ =>
            if env.commitOk then
              { result := .ok (), db := (db.clearCurrent).setCurrent target
              , mgr := ((stopOthers mgr env target).Start env.fs env.startEnv target
                  3000).mgr }
            else
              { result := .error .commitFailed, db := db
              , mgr := ((((stopOthers mgr env target).Start env.fs env.startEnv
                  target 3000).mgr).Stop (env.stopEnvs target) target).mgr }

/-- Service-level events of SwitchToOfficial, recorded in order. -/
inductive SEvent where
  | dbClearAll
  | backupStatic
  | removeStatic
  | stopSSR (name : String)
  | verifyQuery
deriving Repr, DecidableEq

/-- Environment of one SwitchToOfficial call: success of the flag
update, whether static mode is active (controls the backup step), and
the stop environments per theme name. -/
structure OfficialEnv where
  updateOk : Bool
  staticActive : Bool
  stopEnvs : String → StopEnv

structure OfficialOut where
  result : Except SwitchError Unit
  db : DB
  mgr : Manager
  trace : List SEvent

/-- SwitchToOfficial (service.go 1066-1131): first clear the persisted
is-current flag on every row, returning the error without any process
action when that update fails; then back up (only when static mode is
active) and remove the static directory, best effort, filesystem only;
then best-effort stop every running SSR theme, logging and continuing
past individual stop failures; finally the advisory consistency query.
Returns nil whenever the flag update succeeded. -/
def SwitchToOfficial (db : DB) (mgr : Manager) (env : OfficialEnv) : OfficialOut :=
  if !env.updateOk then
    { result := .error .updateFailed, db := db, mgr := mgr, trace := [.dbClearAll] }
  else
    { result := .ok ()
    , db := db.clearCurrent
    , mgr := (mgr.ListRunning).foldl
        (fun acc n => (acc.Stop (env.stopEnvs n) n).mgr) mgr
    , trace := .dbClearAll ::
        (if env.staticActive then [SEvent.backupStatic, SEvent.removeStatic]
         else [SEvent.removeStatic])
        ++ (mgr.ListRunning).map .stopSSR ++ [.verifyQuery] }

lemma stop_isRunning_false (m : Manager) (e : StopEnv) (n : String) :
    ((m.Stop e n).mgr).IsRunning n = false := by
  by_cases h : m.liveEntry n
  · rw [stop_eq_live m e n h]
    simp [Manager.IsRunning, Manager.liveEntry, eraseKey_lookup_self]
  · have hf : m.liveEntry n = false := by
      cases hb : m.liveEntry n
      · rfl
      · exact absurd hb h
    rw [stop_eq_notRunning m e n hf]
    simpa [Manager.IsRunning] using hf

lemma stop_mgr_lookup_other (m : Manager) (e : StopEnv) (n k : String) (h : k ≠ n) :
    ((m.Stop e n).mgr).lookup k = m.lookup k := by
  by_cases hl : m.liveEntry n
  · rw [stop_eq_live m e n hl]
    exact eraseKey_lookup_ne m n k h
  · have hf : m.liveEntry n = false := by
      cases hb : m.liveEntry n
      · rfl
      · exact absurd hb hl
    rw [stop_eq_notRunning m e n hf]

lemma foldl_stop_lookup (env : SwitchEnv) (target : String) :
    ∀ (l : List String) (acc : Manager),
      (l.foldl (fun acc n => if n == target then acc
          else (acc.Stop (env.stopEnvs n) n).mgr) acc).lookup target
        = acc.lookup target := by
  intro l
  induction l with
  | nil => intro acc; rfl
  | cons x t ih =>
      intro acc
      rw [List.foldl_cons]
      cases hx : (x == target) with
      | true => simp only [hx, if_true]; exact ih acc
      | false =>
          have hne : target ≠ x := Ne.symm (beq_eq_false_iff_ne.mp hx)
          simp only [hx, Bool.false_eq_true, if_false]
          rw [ih]
          exact stop_mgr_lookup_other acc (env.stopEnvs x) x target hne

lemma stopOthers_isRunning_target (mgr : Manager) (env : SwitchEnv)
    (target : String) :
    (stopOthers mgr env target).IsRunning target = mgr.IsRunning target := by
  unfold Manager.IsRunning Manager.liveEntry stopOthers
  rw [foldl_stop_lookup]

lemma start_mgr_on_error (m : Manager) (fs : FS) (env : StartEnv) (n : String)
    (p : Nat) (e : StartError)
    (h : (Manager.Start m fs env n p).result = .error e) :
    (Manager.Start m fs env n p).mgr = m := by
  unfold Manager.Start at h ⊢
  by_cases h1 : m.liveEntry n
  · simp [h1]
  · by_cases h2 : fs.serverJsExists n
    · by_cases h3 : env.spawnOk
      · simp [h1, h2, h3] at h
      · simp [h1, h2, h3]
    · simp [h1, h2]

/-- C2: if starting the target fails, SwitchToSSRTheme returns an error,
the persisted state is unchanged (the transactional flag flip is rolled
back) and the target is not left running; if persisting fails — the
in-transaction clear or set, or the final commit — the switch fails with
the persisted state unchanged, and the target process is never left
just-started: on commit failure it is stopped, and on clear/set failure
nothing has been started yet (the registry is exactly the state after
stopping the other themes). -/
theorem switch_ssr_rollback (db : DB) (mgr : Manager) (env : SwitchEnv)
    (target : String) :
    ((SwitchToSSRTheme db mgr env target).result = .error .startFailed →
      (SwitchToSSRTheme db mgr env target).db = db
      ∧ ((SwitchToSSRTheme db mgr env target).mgr).IsRunning target = false)
    ∧ ((SwitchToSSRTheme db mgr env target).result = .error .commitFailed →
      (SwitchToSSRTheme db mgr env target).db = db
      ∧ ((SwitchToSSRTheme db mgr env target).mgr).IsRunning target = false)
    ∧ (((SwitchToSSRTheme db mgr env target).result = .error .clearFailed
        ∨ (SwitchToSSRTheme db mgr env target).result = .error .setFailed) →
      (SwitchToSSRTheme db mgr env target).db = db
      ∧ (SwitchToSSRTheme db mgr env target).mgr = stopOthers mgr env target)
    ∧ (∀ (r : ThemeRow), db.findRow target = some r → env.queryOk = true →
        env.txBeginOk = true → env.clearOk = true → env.setOk = true →
        (stopOthers mgr env target).IsRunning target = false →
        ∀ e, ((stopOthers mgr env target).Start env.fs env.startEnv target
            3000).result = .error e →
        (SwitchToSSRTheme db mgr env target).result = .error .startFailed) := by
  have part4 : ∀ (r : ThemeRow), db.findRow target = some r → env.queryOk = true →
      env.txBeginOk = true → env.clearOk = true → env.setOk = true →
      (stopOthers mgr env target).IsRunning target = false →
      ∀ e, ((stopOthers mgr env target).Start env.fs env.startEnv target
          3000).result = .error e →
      (SwitchToSSRTheme db mgr env target).result = .error .startFailed := by
    intro r hrow hq htx hcl hset hrun e hres
    unfold SwitchToSSRTheme
    rw [hq, hrow, htx, hcl, hset, hrun, hres]
    rfl
  have rest : ((SwitchToSSRTheme db mgr env target).result = .error .startFailed →
      (SwitchToSSRTheme db mgr env target).db = db
      ∧ ((SwitchToSSRTheme db mgr env target).mgr).IsRunning target = false)
    ∧ ((SwitchToSSRTheme db mgr env target).result = .error .commitFailed →
      (SwitchToSSRTheme db mgr env target).db = db
      ∧ ((SwitchToSSRTheme db mgr env target).mgr).IsRunning target = false)
    ∧ (((SwitchToSSRTheme db mgr env target).result = .error .clearFailed
        ∨ (SwitchToSSRTheme db mgr env target).result = .error .setFailed) →
      (SwitchToSSRTheme db mgr env target).db = db
      ∧ (SwitchToSSRTheme db mgr env target).mgr = stopOthers mgr env target) := by
    unfold SwitchToSSRTheme
    cases hq : env.queryOk with
    | false => simp
    | true =>
      cases hrow : db.findRow target with
      | none => simp
      | some r =>
        cases htx : env.txBeginOk with
        | false => simp
        | true =>
          cases hcl : env.clearOk with
          | false => simp
          | true =>
            cases hset : env.setOk with
            | false => simp
            | true =>
              cases hrun : (stopOthers mgr env target).IsRunning target with
              | true =>
                cases hcom : env.commitOk with
                | true => simp
                | false =>
                    refine ⟨by simp, fun _ => ⟨rfl, stop_isRunning_false _ _ _⟩,
                      by simp⟩
              | false =>
                cases hres : ((stopOthers mgr env target).Start env.fs env.startEnv
                    target 3000).result with
                | error e =>
                    simp only [hres]
                    refine ⟨fun _ => ⟨rfl, ?_⟩, by simp, by simp⟩
                    rw [start_mgr_on_error _ _ _ _ _ e hres]
                    exact hrun
                | ok u =>
                    simp only [hres]
                    cases hcom : env.commitOk with
                    | true => simp
                    | false =>
                        refine ⟨by simp, fun _ => ⟨rfl, stop_isRunning_false _ _ _⟩,
                          by simp⟩
  exact ⟨rest.1, rest.2.1, rest.2.2, part4⟩

/-- A one-row catalog holding theme a, not current. -/
def dbA : DB := ⟨[⟨"a", false⟩]⟩

/-- A switch environment in which every step succeeds except the final
transaction commit. -/
def envCommitFail : SwitchEnv :=
  { queryOk := true, txBeginOk := true, clearOk := true, setOk := true
  , commitOk := false, fs := ⟨fun n => n == "a"⟩, startEnv := ⟨true, true, 0⟩
  , stopEnvs := fun _ => ⟨true, true⟩ }

/-- Witness for C2: with the commit failing after the target was started
from an empty registry, the switch fails, the persisted state is
unchanged and the target is not running. -/
theorem switch_ssr_rollback_witness :
    (SwitchToSSRTheme dbA ⟨[]⟩ envCommitFail "a").result = .error .commitFailed
    ∧ (SwitchToSSRTheme dbA ⟨[]⟩ envCommitFail "a").db = dbA
    ∧ ((SwitchToSSRTheme dbA ⟨[]⟩ envCommitFail "a").mgr).IsRunning "a" = false := by
  have h := (switch_ssr_rollback dbA ⟨[]⟩ envCommitFail "a").2.1 (by decide)
  exact ⟨by decide, h.1, h.2⟩

/-- C10: when the target is already running before the call (so this
switch starts nothing) and every step succeeds except the commit,
SwitchToSSRTheme stops the previously-healthy target anyway: it returns
the commit error with the persisted flag flip not applied and the target
no longer running. -/
theorem commit_fail_stops_prerunning_target (db : DB) (mgr : Manager)
    (env : SwitchEnv) (target : String) (r : ThemeRow)
    (hrow : db.findRow target = some r)
    (hq : env.queryOk = true) (htx : env.txBeginOk = true)
    (hcl : env.clearOk = true) (hset : env.setOk = true)
    (hcom : env.commitOk = false)
    (hrun : mgr.IsRunning target = true) :
    (SwitchToSSRTheme db mgr env target).result = .error .commitFailed
    ∧ ((SwitchToSSRTheme db mgr env target).mgr).IsRunning target = false
    ∧ (SwitchToSSRTheme db mgr env target).db = db := by
  have hrun1 : (stopOthers mgr env target).IsRunning target = true := by
    rw [stopOthers_isRunning_target]; exact hrun
  unfold SwitchToSSRTheme
  rw [hq, hrow, htx, hcl, hset, hrun1, hcom]
  exact ⟨rfl, stop_isRunning_false _ _ _, rfl⟩

/-- Witness for C10: theme a runs on a one-entry registry, the commit
fails, and the previously-running a ends up stopped with the flag flip
not persisted. -/
theorem commit_fail_stops_prerunning_target_witness :
    (SwitchToSSRTheme dbA mgrA envCommitFail "a").result = .error .commitFailed
    ∧ ((SwitchToSSRTheme dbA mgrA envCommitFail "a").mgr).IsRunning "a" = false
    ∧ (SwitchToSSRTheme dbA mgrA envCommitFail "a").db = dbA :=
  commit_fail_stops_prerunning_target dbA mgrA envCommitFail "a" ⟨"a", false⟩
    (by decide) rfl rfl rfl rfl rfl (by decide)

/-- C3: SwitchToOfficial clears the persisted is-current flags first —
when that update fails it returns the error with the registry untouched
and no stop event emitted — and only afterwards best-effort stops every
running SSR instance (a stop event for each runs after the flag-update
event), returning success whatever the individual stop environments. -/
theorem switch_official_flag_first (db : DB) (mgr : Manager) (env : OfficialEnv) :
    (env.updateOk = false →
      (SwitchToOfficial db mgr env).result = .error .updateFailed
      ∧ (SwitchToOfficial db mgr env).mgr = mgr
      ∧ (SwitchToOfficial db mgr env).db = db
      ∧ ∀ n, SEvent.stopSSR n ∉ (SwitchToOfficial db mgr env).trace)
    ∧ (env.updateOk = true →
      (SwitchToOfficial db mgr env).result = .ok ()
      ∧ (SwitchToOfficial db mgr env).db = db.clearCurrent
      ∧ (SwitchToOfficial db mgr env).trace.head? = some SEvent.dbClearAll
      ∧ ∀ n, n ∈ mgr.ListRunning →
          SEvent.stopSSR n ∈ (SwitchToOfficial db mgr env).trace) := by
  constructor
  · intro hup
    unfold SwitchToOfficial
    rw [hup]
    exact ⟨rfl, rfl, rfl, fun n => by simp⟩
  · intro hup
    unfold SwitchToOfficial
    rw [hup]
    refine ⟨rfl, rfl, rfl, fun n hn => ?_⟩
    have hm : SEvent.stopSSR n ∈ (mgr.ListRunning).map SEvent.stopSSR :=
      List.mem_map_of_mem SEvent.stopSSR hn
    exact List.mem_cons_of_mem _
      (List.mem_append_left _ (List.mem_append_right _ hm))

/-- Witness for C3: with theme a running and all stops succeeding, the
operation succeeds, clears the flags, and the stop of a comes after the
flag update at the head of the trace. -/
theorem switch_official_flag_first_witness :
    (SwitchToOfficial dbA mgrA ⟨true, false, fun _ => ⟨true, true⟩⟩).result = .ok ()
    ∧ (SwitchToOfficial dbA mgrA ⟨true, false, fun _ => ⟨true, true⟩⟩).trace.head?
        = some SEvent.dbClearAll
    ∧ SEvent.stopSSR "a"
        ∈ (SwitchToOfficial dbA mgrA ⟨true, false, fun _ => ⟨true, true⟩⟩).trace := by
  have h := (switch_official_flag_first dbA mgrA
    ⟨true, false, fun _ => ⟨true, true⟩⟩).2 rfl
  exact ⟨h.1, h.2.2.1, h.2.2.2 "a" (by decide)⟩

end MurphyApp
